import Mathlib

/-!
Verification of the Antigravity-Manager instance registry and process
lifecycle code (src-tauri/src/modules/instance.rs, models/instance.rs,
modules/process.rs), via a shallow embedding of the relevant Rust
functions as executable Lean definitions.
-/

namespace AGM

/-- Lowercase a string character by character (embeds Rust's
`to_lowercase` as used on ASCII process names and command lines). -/
def strLower (s : String) : String := String.mk (s.data.map Char.toLower)

/-- Character-list prefix test, used to implement substring search. -/
def isPrefixOfB : List Char → List Char → Bool
  | [], _ => true
  | _ :: _, [] => false
  | a :: as, b :: bs => a == b && isPrefixOfB as bs

/-- Character-list infix test, used to implement substring search. -/
def isInfixOfB (needle : List Char) : List Char → Bool
  | [] => isPrefixOfB needle []
  | c :: t => isPrefixOfB needle (c :: t) || isInfixOfB needle t

/-- Substring containment (embeds Rust's `str::contains`). -/
def strContains (hay needle : String) : Bool :=
  isInfixOfB needle.data hay.data

/-- Single-character replacement (embeds Rust's `str::replace('/', "\\")`
as used to normalize path separators in command lines). -/
def replaceChar (a b : Char) (s : String) : String :=
  String.mk (s.data.map fun c => if c = a then b else c)

/-- Instance record, from `models/instance.rs` (struct Instance). A
`PathBuf` is embedded as a `String`; timestamps are `Int`. -/
structure Instance where
  id : String
  name : String
  user_data_dir : String
  antigravity_executable : Option String := none
  extra_args : List String := []
  account_ids : List String := []
  current_account_id : Option String := none
  is_default : Bool := false
  last_launch_args : Option (List String) := none
  last_root_pid : Option Nat := none
  created_at : Int := 0
deriving DecidableEq, Repr

/-- Constructor from `Instance::new` in models/instance.rs (the
`created_at` timestamp is fixed at 0 in the embedding). -/
def Instance.new (id name user_data_dir : String) : Instance :=
  { id := id, name := name, user_data_dir := user_data_dir }

/-- Constructor from `Instance::new_default` in models/instance.rs; the
fresh uuid is passed as a parameter. -/
def Instance.new_default (freshId user_data_dir : String) : Instance :=
  { Instance.new freshId "默认实例" user_data_dir with is_default := true }

/-- Launch-argument composition from `Instance::get_launch_args` in
models/instance.rs: pushes the directory flag and the directory only for
non-default instances, then extends with `extra_args`. -/
def Instance.get_launch_args (i : Instance) : List String :=
  (if !i.is_default then ["--user-data-dir", i.user_data_dir] else [])
    ++ i.extra_args

/-- File-system effect, for modelling the persistence discipline of
modules/instance.rs saves. -/
inductive FsOp where
  | write (path content : String)
  | rename (src dst : String)
deriving DecidableEq, Repr

/-- Path of the index file, from `save_instance_index`
(data_dir.join("instances.json")). -/
def indexPath (dataDir : String) : String := dataDir ++ "/instances.json"

/-- Path of the temporary sibling of the index file, from
`save_instance_index` (format!("{}.tmp", INSTANCES_INDEX)). -/
def indexTmpPath (dataDir : String) : String :=
  dataDir ++ "/instances.json.tmp"

/-- Path of a per-instance record file, from `save_instance`
(instances_dir.join(format!("{}.json", instance.id))). -/
def instancePath (instancesDir id : String) : String :=
  instancesDir ++ "/" ++ id ++ ".json"

/-- File operations performed by `save_instance_index` in
modules/instance.rs: write the serialized index to the temporary sibling,
then rename it over the index file. -/
def save_instance_index_ops (dataDir serialized : String) : List FsOp :=
  [FsOp.write (indexTmpPath dataDir) serialized,
   FsOp.rename (indexTmpPath dataDir) (indexPath dataDir)]

/-- File operations performed by `save_instance` in modules/instance.rs:
a single direct `fs::write` of the serialized record to the target path,
with no temporary file and no rename. -/
def save_instance_ops (instancesDir id serialized : String) : List FsOp :=
  [FsOp.write (instancePath instancesDir id) serialized]

/-- Test whether an operation list ever writes directly to the target. -/
def writesDirectlyTo (ops : List FsOp) (target : String) : Bool :=
  ops.any fun op =>
    match op with
    | FsOp.write p _ => p == target
    | FsOp.rename _ _ => false

/-- Test whether an operation list installs the target by renaming some
distinct sibling file onto it. -/
def renamesOnto (ops : List FsOp) (target : String) : Bool :=
  ops.any fun op =>
    match op with
    | FsOp.write _ _ => false
    | FsOp.rename src dst => dst == target && src != target

/-- An atomic save of the target: never written directly, only installed
by a rename from a distinct temporary file. -/
def atomicSave (ops : List FsOp) (target : String) : Bool :=
  !writesDirectlyTo ops target && renamesOnto ops target

/-- One entry of a process snapshot, from modules/process.rs (sysinfo):
a process has a name, a command line (embedded as the space-joined
argument string the Rust code builds), and an optional parent pid. -/
structure Proc where
  name : String
  cmdline : String
  parent : Option Nat := none
deriving DecidableEq, Repr

/-- Process snapshot: an association list from pid to process data. -/
abbrev Snapshot := List (Nat × Proc)

/-- Process lookup in a snapshot (embeds `system.process(pid)`). -/
def lookupProc (s : Snapshot) (pid : Nat) : Option Proc :=
  ((s : List (Nat × Proc)).find? fun e => e.1 == pid).map (·.2)

/-- Name predicate of the close-path walks in modules/process.rs
(get_all_instance_root_pids, get_instance_root_pid): the lowercased name
must be exactly "antigravity.exe" or "antigravity". -/
def isAgNameClose (name : String) : Bool :=
  let n := strLower name
  n == "antigravity.exe" || n == "antigravity"

/-- Name predicate of the running-check walk in modules/process.rs
(is_default_instance_running, get_instance_root_process_args): the
lowercased name is "antigravity.exe" or starts with "antigravity". -/
def isAgNameRunning (name : String) : Bool :=
  let n := strLower name
  n == "antigravity.exe" || isPrefixOfB "antigravity".data n.data

/-- Result of one ancestor walk. `root p` embeds the Rust closure
returning `Some(p)`; `missing` embeds it returning `None` (the current
process record or its parent link is absent); `outOfFuel` marks an
execution that is still looping after the given number of hops (the Rust
loop has no hop bound, so on cyclic parent data it never returns). -/
inductive WalkResult where
  | root (pid : Nat)
  | missing
  | outOfFuel
deriving DecidableEq, Repr

/-- Ancestor walk from the `find_root_antigravity` closures in
modules/process.rs: follow the parent link while the parent record exists
in the snapshot and its name matches; yield the current pid once the
parent is absent or non-matching; yield nothing when the current record
or its parent link is missing. The fuel argument counts hops, since the
Rust `loop` itself is unbounded. -/
def findRootAux (isAg : String → Bool) (s : Snapshot) :
    Nat → Nat → WalkResult
  | 0, _ => WalkResult.outOfFuel
  | fuel + 1, current =>
    match lookupProc s current with
    | none => WalkResult.missing
    | some proc =>
      match proc.parent with
      | none => WalkResult.missing
      | some parentPid =>
        match lookupProc s parentPid with
        | some parent =>
          if isAg parent.name then findRootAux isAg s fuel parentPid
          else WalkResult.root current
        | none => WalkResult.root current

/-- Root-set collection of `get_all_instance_root_pids`: walk up from
every process whose name matches, deduplicating the terminal ancestors
(the Rust HashSet is embedded as a first-encounter-ordered list). Fuel
is sized to the snapshot, which suffices on acyclic parent data. -/
def collectRoots (s : Snapshot) : List Nat :=
  (s : List (Nat × Proc)).foldl
    (fun acc e =>
      if isAgNameClose e.2.name then
        match findRootAux isAgNameClose s (List.length s + 1) e.1 with
        | WalkResult.root r => if acc.contains r then acc else acc ++ [r]
        | _ => acc
      else acc)
    []

/-- Lowercased, space-joined command line of a root pid, from the
matching step of `get_all_instance_root_pids` (missing process gives the
empty string, exactly as the Rust code builds `String::new()`). -/
def rootArgs (s : Snapshot) (pid : Nat) : String :=
  match lookupProc s pid with
  | some p => strLower p.cmdline
  | none => ""

/-- Root resolution and instance matching from
`get_all_instance_root_pids` in modules/process.rs: collect every unique
root, then keep a root when (for the default data directory) its
normalized command line does not contain "--user-data-dir=", or (for a
custom directory) it contains the normalized directory. The
platform-default data directory is passed as a parameter. -/
def get_all_instance_root_pids (defaultUserData : String) (s : Snapshot)
    (user_data_dir : String) : List Nat :=
  let uddStr := strLower user_data_dir
  let uddNorm := replaceChar '/' '\\' uddStr
  let isDefaultDir := user_data_dir == defaultUserData
    || (strContains uddStr "antigravity" && !strContains uddStr "antigravity-")
  (collectRoots s).filter fun r =>
    let argsNorm := replaceChar '/' '\\' (rootArgs s r)
    if isDefaultDir then !strContains argsNorm "--user-data-dir="
    else strContains argsNorm uddNorm

/-- Decidable equality for Except values, needed to evaluate theorems
about operation results on concrete inputs. -/
instance {ε α : Type} [DecidableEq ε] [DecidableEq α] :
    DecidableEq (Except ε α) := fun a b =>
  match a, b with
  | Except.error x, Except.error y =>
    if h : x = y then isTrue (by rw [h])
    else isFalse (by intro hc; cases hc; exact h rfl)
  | Except.error _, Except.ok _ => isFalse (by intro hc; cases hc)
  | Except.ok _, Except.error _ => isFalse (by intro hc; cases hc)
  | Except.ok x, Except.ok y =>
    if h : x = y then isTrue (by rw [h])
    else isFalse (by intro hc; cases hc; exact h rfl)

/-- Observable outcome of one close operation: the signals sent (pid and
signal name), the fixed wait in milliseconds, and the returned result. -/
structure CloseOutcome where
  signals : List (Nat × String)
  waitMs : Nat
  result : Except String Unit
deriving DecidableEq, Repr

/-- Close operation from `close_instance` in modules/process.rs
(non-Windows path): resolve the matching roots; if none, succeed with no
signal; otherwise send SIGTERM to each root, sleep a fixed 1000 ms, and
return success. The timeout parameter is received but never consulted
(Rust binds it as `_timeout_secs`). -/
def close_instance (defaultUserData : String) (s : Snapshot)
    (user_data_dir : String) (timeout_secs : Nat) : CloseOutcome :=
  let _ := timeout_secs
  let roots := get_all_instance_root_pids defaultUserData s user_data_dir
  if roots.isEmpty then
    { signals := [], waitMs := 0, result := Except.ok () }
  else
    { signals := roots.map fun p => (p, "SIGTERM")
      waitMs := 1000
      result := Except.ok () }

/-- Graceful-wait poll loop of `close_antigravity` (macOS and Linux
paths) in modules/process.rs: starting from 0 elapsed milliseconds,
while the elapsed time is below the limit, sleep 500 ms and re-check.
The returned value is the elapsed time at which the loop exits when the
application ignores the graceful signal (so the running check stays
true). Fuel makes the recursion structural. -/
def pollLoopAux (limitMs : Nat) : Nat → Nat → Nat
  | 0, elapsed => elapsed
  | fuel + 1, elapsed =>
    if elapsed < limitMs then pollLoopAux limitMs fuel (elapsed + 500)
    else elapsed

/-- Graceful-exit budget of `close_antigravity`: `(timeout_secs * 7) / 10`
whole seconds, by Rust integer division. -/
def graceful_timeout (timeout_secs : Nat) : Nat := timeout_secs * 7 / 10

/-- Elapsed milliseconds at which `close_antigravity` escalates from
SIGTERM to SIGKILL when the target processes ignore the graceful signal:
the exit time of the 500 ms poll loop bounded by the graceful budget. -/
def gracefulWaitMs (timeout_secs : Nat) : Nat :=
  pollLoopAux (1000 * graceful_timeout timeout_secs)
    (2 * graceful_timeout timeout_secs + 1) 0

/-- Default-instance attribution used by `is_default_instance_running`
in modules/process.rs: a root witnesses the default instance when its
lowercased command line is nonempty (empty ones are skipped by
`continue`) and does not contain "--user-data-dir". -/
def runningCheckIsDefault (cmdline : String) : Bool :=
  let a := strLower cmdline
  !(a == "") && !strContains a "--user-data-dir"

/-- Default-instance attribution used by the close-path matcher
`get_all_instance_root_pids` for the default data directory: a root
matches when its lowercased, separator-normalized command line does not
contain "--user-data-dir=" (note the equals sign, and no empty-line
skip). -/
def closeMatcherIsDefault (cmdline : String) : Bool :=
  let a := replaceChar '/' '\\' (strLower cmdline)
  !strContains a "--user-data-dir="

/-- Index entry, from `struct InstanceSummary` in models/instance.rs. -/
structure InstanceSummary where
  id : String
  name : String
  user_data_dir : String
  is_default : Bool
  account_count : Nat
deriving DecidableEq, Repr

/-- Projection from a record to its summary, from
`impl From<&Instance> for InstanceSummary`. -/
def summaryOf (i : Instance) : InstanceSummary :=
  { id := i.id
    name := i.name
    user_data_dir := i.user_data_dir
    is_default := i.is_default
    account_count := i.account_ids.length }

/-- Persisted registry state: the index file's summary list and the
per-instance record files keyed by instance id. -/
structure RegState where
  index : List InstanceSummary
  records : List (String × Instance)
deriving DecidableEq, Repr

/-- Cached-launch-argument corruption test from `load_instance` in
modules/instance.rs: the space-joined cached arguments contain the
helper-process marker "--type=". -/
def needsCleanup (i : Instance) : Bool :=
  match i.last_launch_args with
  | some args => strContains (String.intercalate " " args) "--type="
  | none => false

/-- Record lookup by id (embeds reading `instances/<id>.json`). -/
def lookupRecord (records : List (String × Instance)) (id : String) :
    Option Instance :=
  (records.find? fun e => e.1 == id).map (·.2)

/-- Record save (embeds `save_instance` writing `instances/<id>.json`:
overwrite the record when present, create it otherwise). -/
def saveRecord (records : List (String × Instance)) (inst : Instance) :
    List (String × Instance) :=
  if records.any (fun e => e.1 == inst.id) then
    records.map fun e => if e.1 == inst.id then (e.1, inst) else e
  else records ++ [(inst.id, inst)]

/-- Record load with self-repair, from `load_instance` in
modules/instance.rs: a missing record fails; a record whose cached
launch arguments contain "--type=" is cleared and rewritten (the Rust
code ignores the rewrite's own result). -/
def load_record (records : List (String × Instance)) (id : String) :
    Option Instance × List (String × Instance) :=
  match lookupRecord records id with
  | none => (none, records)
  | some inst =>
    if needsCleanup inst then
      let cleaned := { inst with last_launch_args := none }
      (some cleaned, saveRecord records cleaned)
    else (some inst, records)

/-- Loop body of `list_instances` in modules/instance.rs: load every
record named by the index in order, collecting loaded instances and the
ids whose load failed, threading the record store through the
self-repair rewrites. -/
def listLoop (records : List (String × Instance)) :
    List InstanceSummary →
    List Instance × List String × List (String × Instance)
  | [] => ([], [], records)
  | s :: rest =>
    match load_record records s.id with
    | (some i, records1) =>
      let (insts, invalid, records2) := listLoop records1 rest
      (i :: insts, invalid, records2)
    | (none, records1) =>
      let (insts, invalid, records2) := listLoop records1 rest
      (insts, s.id :: invalid, records2)

/-- Listing with index self-healing, from `list_instances` in
modules/instance.rs: load all indexed records; when some ids failed to
load, rewrite the index with those ids pruned (in the no-failure state
model the best-effort save always lands). -/
def list_instances_st (st : RegState) : List Instance × RegState :=
  let (insts, invalid, records1) := listLoop st.records st.index
  if invalid.isEmpty then (insts, { st with records := records1 })
  else
    (insts,
     { index := st.index.filter fun s => !invalid.contains s.id
       records := records1 })

/-- Default lookup from `get_default_instance` in modules/instance.rs:
the first listed instance with `is_default`. -/
def get_default_instance_st (st : RegState) :
    Option Instance × RegState :=
  let (insts, st1) := list_instances_st st
  (insts.find? (·.is_default), st1)

/-- Default-instance bootstrap from `ensure_default_instance` in
modules/instance.rs: return the existing default when one is listed,
otherwise create a fresh default record (fresh uuid and resolved data
directory passed as parameters), save it and append its summary. -/
def ensure_default_instance_st (st : RegState)
    (freshId dir : String) : Instance × RegState :=
  match get_default_instance_st st with
  | (some i, st1) => (i, st1)
  | (none, st1) =>
    let inst := Instance.new_default freshId dir
    (inst,
     { index := st1.index ++ [summaryOf inst]
       records := saveRecord st1.records inst })

/-- Instance creation from `create_instance` in modules/instance.rs:
reject when the directory equals the `user_data_dir` of a summary
already in the index, leaving the state untouched; otherwise save the
new record and append its summary. -/
def create_instance_st (st : RegState) (freshId name user_data_dir : String)
    (extra_args : List String) : Except String Instance × RegState :=
  if st.index.any (fun s => s.user_data_dir == user_data_dir) then
    (Except.error "user_data_dir already in use", st)
  else
    let inst :=
      { Instance.new freshId name user_data_dir with extra_args := extra_args }
    (Except.ok inst,
     { index := st.index ++ [summaryOf inst]
       records := saveRecord st.records inst })

/-- Instance update from `update_instance` in modules/instance.rs: the
record must exist; the passed instance is then saved verbatim and its
summary replaces the indexed one. -/
def update_instance_st (st : RegState) (inst : Instance) :
    Except String Unit × RegState :=
  match load_record st.records inst.id with
  | (none, records1) =>
    (Except.error "Instance not found", { st with records := records1 })
  | (some _, records1) =>
    let records2 := saveRecord records1 inst
    let index1 := st.index.map fun s =>
      if s.id == inst.id then summaryOf inst else s
    (Except.ok (), { index := index1, records := records2 })

/-- Number of listed instances carrying `is_default`. -/
def defaultsListed (st : RegState) : Nat :=
  ((list_instances_st st).1.filter (·.is_default)).length

/-- Operation-result environment for `list_instances`: the outcome of
each fallible step the Rust function performs (first index load, each
record load, healing-block lock acquisition, healing-block index reload,
healing-block index save). -/
structure ListEnv where
  indexLoad1 : Except String (List String)
  recordLoad : String → Except String Instance
  lockAcquire : Except String Unit
  indexLoad2 : Except String (List String)
  indexSave : Except String Unit

/-- Error-propagation skeleton of `list_instances` in
modules/instance.rs: the first index load propagates failure; record
load failures only mark ids invalid; when invalid ids exist, the healing
block acquires the lock and reloads the index with `?` (propagating
their failures) but discards the final save's result (`let _ = ...`). -/
def list_instances_io (env : ListEnv) : Except String (List Instance) := do
  let ids ← env.indexLoad1
  let (insts, invalid) := ids.foldl
    (fun (acc : List Instance × List String) id =>
      match env.recordLoad id with
      | Except.ok i => (acc.1 ++ [i], acc.2)
      | Except.error _ => (acc.1, acc.2 ++ [id]))
    ([], [])
  if invalid.isEmpty then
    pure insts
  else do
    let _ ← env.lockAcquire
    let ids2 ← env.indexLoad2
    let _pruned := ids2.filter fun id => !invalid.contains id
    let _ := env.indexSave
    pure insts

/-- Error-propagation skeleton of `load_instance` in
modules/instance.rs: a parse failure propagates; when the cached launch
arguments are corrupted, they are cleared and the rewrite's result is
discarded (`let _ = save_instance(..)`), so the load still succeeds. -/
def load_instance_io (parsed : Except String Instance)
    (cleanupSave : Except String Unit) : Except String Instance :=
  match parsed with
  | Except.error e => Except.error e
  | Except.ok inst =>
    if needsCleanup inst then
      let _ := cleanupSave
      Except.ok { inst with last_launch_args := none }
    else Except.ok inst

/-- Well-ordering witness for a snapshot: every recorded parent pid is
strictly smaller than the child pid. This rules out cyclic parent data
and is the acyclicity assumption under which the unbounded ancestor
walk of modules/process.rs terminates. -/
def parentsDecrease (s : Snapshot) : Bool :=
  s.all fun e =>
    match e.2.parent with
    | some q => decide (q < e.1)
    | none => true

/-- Well-formed record store: every record file's content carries the id
it is stored under (which is what `save_instance` guarantees, since it
derives the file name from the instance's own id). -/
def recordsWF (records : List (String × Instance)) : Bool :=
  records.all fun e => e.2.id == e.1

/-- Clean registry state: every indexed id has a backing record and that
record needs no cached-argument cleanup, so listing it is a pure read. -/
def cleanSt (st : RegState) : Bool :=
  st.index.all fun s =>
    match lookupRecord st.records s.id with
    | some i => !needsCleanup i
    | none => false

/-- Instances named by the index, read off the record store in index
order. -/
def listedOf (st : RegState) : List Instance :=
  st.index.filterMap fun s => lookupRecord st.records s.id

/-! Theorems. -/

/-- Helper: the temporary sibling of the index file is a different path
from the index file itself, for every data directory. -/
theorem indexTmpPath_ne_indexPath (dataDir : String) :
    indexTmpPath dataDir ≠ indexPath dataDir := by
  intro h
  have h2 := congrArg String.length h
  simp [indexTmpPath, indexPath, String.length_append] at h2
  exact absurd h2 (by decide)

/-- C1 counterexample: `save_instance` writes the per-instance record
file directly (a plain `fs::write`), with no temporary sibling and no
rename, so its save is not atomic in the claimed sense. -/
theorem save_record_not_atomic :
    atomicSave (save_instance_ops "/data/instances" "id1" "{}")
      (instancePath "/data/instances" "id1") = false := by
  decide

/-- C1 amended: only the index save follows the temp-file-plus-rename
discipline; the per-instance record save writes the target file
directly and performs no rename onto it. -/
theorem save_discipline (dataDir instancesDir id c1 c2 : String) :
    atomicSave (save_instance_index_ops dataDir c1) (indexPath dataDir) = true ∧
    writesDirectlyTo (save_instance_ops instancesDir id c2)
      (instancePath instancesDir id) = true ∧
    renamesOnto (save_instance_ops instancesDir id c2)
      (instancePath instancesDir id) = false := by
  refine ⟨?_, ?_, ?_⟩
  · have hne := indexTmpPath_ne_indexPath dataDir
    simp [atomicSave, writesDirectlyTo, renamesOnto, save_instance_index_ops,
      beq_eq_false_iff_ne.mpr hne, bne]
  · simp [writesDirectlyTo, save_instance_ops]
  · simp [renamesOnto, save_instance_ops]

/-- C3 counterexample: with a timeout budget of 1 second, the graceful
budget is (1 * 7) / 10 = 0 whole seconds by integer division, so the
escalation to the forceful signal happens at 0 ms elapsed, before 70%
of the budget (700 ms) has passed. -/
theorem forceful_before_seventy_percent :
    gracefulWaitMs 1 = 0 ∧ gracefulWaitMs 1 < 700 * 1 := by
  decide

/-- C3 amended: in the macOS and Linux close_antigravity paths, when the
target processes ignore the graceful signal, the forceful signal is
issued no earlier than the floored graceful budget, 1000 * ((7 * t) / 10)
milliseconds after the graceful signal (the Windows paths and
close_instance do not wait at all before their kill). -/
theorem forceful_after_floored_budget (t : Nat) :
    1000 * graceful_timeout t ≤ gracefulWaitMs t := by
  have key : ∀ (limit fuel e : Nat), limit ≤ e + 500 * fuel →
      limit ≤ pollLoopAux limit fuel e := by
    intro limit fuel
    induction fuel with
    | zero => intro e h; simp only [pollLoopAux]; omega
    | succ n ih =>
      intro e h
      simp only [pollLoopAux]
      by_cases hc : e < limit
      · rw [if_pos hc]
        exact ih (e + 500) (by omega)
      · rw [if_neg hc]
        omega
  unfold gracefulWaitMs
  exact key _ _ 0 (by omega)

/-- C7 counterexample: an instance whose extra arguments themselves
contain the directory flag yields launch arguments containing
"--user-data-dir" even though it is the default instance. -/
theorem default_launch_args_can_contain_flag :
    "--user-data-dir" ∈
      ({ Instance.new "i" "n" "/d" with
          is_default := true,
          extra_args := ["--user-data-dir"] } : Instance).get_launch_args := by
  decide

/-- C7 amended: for the default instance the launch arguments are
exactly the extra arguments (so the directory flag appears only if the
extra arguments contain it); for a non-default instance they are the
flag, immediately followed by the data directory, followed by the extra
arguments. -/
theorem get_launch_args_spec (i : Instance) :
    (i.is_default = true → i.get_launch_args = i.extra_args) ∧
    (i.is_default = false →
      i.get_launch_args
        = "--user-data-dir" :: i.user_data_dir :: i.extra_args) := by
  constructor <;> intro h <;> simp [Instance.get_launch_args, h]

/-- Witness for the amended C7 theorem at a concrete non-default
instance. -/
theorem get_launch_args_spec_witness :
    (Instance.new "w" "n" "/d").is_default = false ∧
    (Instance.new "w" "n" "/d").get_launch_args
      = "--user-data-dir" :: "/d" :: (Instance.new "w" "n" "/d").extra_args :=
  ⟨rfl, (get_launch_args_spec (Instance.new "w" "n" "/d")).2 rfl⟩

/-- C8: when the requested directory equals the user_data_dir of a
summary already present in the index, create_instance fails and the
persisted state (index and records) is unchanged. -/
theorem create_conflict_no_change (st : RegState)
    (freshId name dir : String) (extra : List String)
    (h : st.index.any (fun s => s.user_data_dir == dir) = true) :
    (create_instance_st st freshId name dir extra).1.isOk = false ∧
    (create_instance_st st freshId name dir extra).2 = st := by
  simp [create_instance_st, h, Except.isOk, Except.toBool]

/-- Witness for C8 at a concrete one-entry index. -/
theorem create_conflict_no_change_witness :
    ((create_instance_st
        { index := [summaryOf (Instance.new "a" "A" "/d1")]
          records := [("a", Instance.new "a" "A" "/d1")] }
        "b" "B" "/d1" []).1.isOk = false) ∧
    ((create_instance_st
        { index := [summaryOf (Instance.new "a" "A" "/d1")]
          records := [("a", Instance.new "a" "A" "/d1")] }
        "b" "B" "/d1" []).2
      = { index := [summaryOf (Instance.new "a" "A" "/d1")]
          records := [("a", Instance.new "a" "A" "/d1")] }) :=
  create_conflict_no_change _ _ _ _ _ (by decide)

/-- C10: close_instance's observable behavior (signals sent, wait, and
result) is identical for any two timeout values, because the Rust
function binds the timeout as `_timeout_secs` and never consults it. -/
theorem close_instance_timeout_irrelevant (d : String) (s : Snapshot)
    (udd : String) (t1 t2 : Nat) :
    close_instance d s udd t1 = close_instance d s udd t2 := rfl

/-- C5 counterexample: on the command line "--user-data-dir /d1", which
passes the directory flag in its space-separated form, the running
check attributes the root to a non-default instance (the flag is
present) while the close-path matcher attributes it to the default
instance (no "--user-data-dir=" substring), so the two detectors do not
decide by the same rule. -/
theorem default_detectors_disagree :
    runningCheckIsDefault "--user-data-dir /d1" = false ∧
    closeMatcherIsDefault "--user-data-dir /d1" = true := by
  decide

/-- C5 amended: the running check attributes a root to the default
instance iff its lowercased command line is nonempty and lacks the
substring "--user-data-dir"; the close-path matcher instead tests for
"--user-data-dir=". The two agree on nonempty command lines where the
flag occurs with the equals sign exactly when it occurs at all. -/
theorem default_detectors_spec (c : String) (hne : strLower c ≠ "")
    (hiff : strContains (strLower c) "--user-data-dir"
      = strContains (replaceChar '/' '\\' (strLower c)) "--user-data-dir=") :
    runningCheckIsDefault c = closeMatcherIsDefault c ∧
    runningCheckIsDefault c = !strContains (strLower c) "--user-data-dir" := by
  constructor
  · simp [runningCheckIsDefault, closeMatcherIsDefault,
      beq_eq_false_iff_ne.mpr hne, hiff]
  · simp [runningCheckIsDefault, beq_eq_false_iff_ne.mpr hne]

/-- Witness for the amended C5 theorem at a concrete equals-form
command line. -/
theorem default_detectors_spec_witness :
    runningCheckIsDefault "--user-data-dir=c:/x"
      = closeMatcherIsDefault "--user-data-dir=c:/x" ∧
    runningCheckIsDefault "--user-data-dir=c:/x"
      = !strContains (strLower "--user-data-dir=c:/x") "--user-data-dir" :=
  default_detectors_spec "--user-data-dir=c:/x" (by decide) (by decide)

/-- C2 counterexample: on a snapshot holding a live root process of the
target instance (which, in particular, keeps existing after the
graceful signal), close_instance sends only SIGTERM signals and still
returns success; it never sends a forceful signal and never reports an
error, contradicting the claimed escalate-then-fail behavior. -/
theorem close_ignores_survivors :
    (get_all_instance_root_pids "/default/Antigravity"
      [(100, { name := "antigravity",
               cmdline := "/usr/bin/antigravity --user-data-dir=/d1",
               parent := some 1 }),
       (1, { name := "systemd", cmdline := "/sbin/init", parent := none })]
      "/d1" ≠ []) ∧
    (close_instance "/default/Antigravity"
      [(100, { name := "antigravity",
               cmdline := "/usr/bin/antigravity --user-data-dir=/d1",
               parent := some 1 }),
       (1, { name := "systemd", cmdline := "/sbin/init", parent := none })]
      "/d1" 30).result = Except.ok () ∧
    ((close_instance "/default/Antigravity"
      [(100, { name := "antigravity",
               cmdline := "/usr/bin/antigravity --user-data-dir=/d1",
               parent := some 1 }),
       (1, { name := "systemd", cmdline := "/sbin/init", parent := none })]
      "/d1" 30).signals.all fun sg => sg.2 == "SIGTERM") = true := by
  refine ⟨by decide, by decide, by decide⟩

/-- C2 amended: close_instance resolves the matching roots; with none it
succeeds with no signal; otherwise it sends exactly one graceful SIGTERM
per root, waits a fixed 1000 ms, and returns success unconditionally —
it never re-snapshots, escalates, or reports failure. -/
theorem close_instance_behavior (d : String) (s : Snapshot)
    (udd : String) (t : Nat) :
    (close_instance d s udd t).result = Except.ok () ∧
    (close_instance d s udd t).signals
      = (get_all_instance_root_pids d s udd).map (fun p => (p, "SIGTERM")) ∧
    (close_instance d s udd t).waitMs
      = (if (get_all_instance_root_pids d s udd).isEmpty then 0 else 1000) := by
  unfold close_instance
  by_cases h : (get_all_instance_root_pids d s udd).isEmpty
  · have hnil : get_all_instance_root_pids d s udd = [] :=
      List.isEmpty_iff.mp h
    simp [h, hnil]
  · simp [h]

/-- C4 counterexample: on a two-process snapshot whose parent links form
a cycle of matching names, the root-resolution walk is still running
after 11 hops (the Rust loop has no hop bound and never terminates
there); and on a snapshot whose only process has no recorded parent
link, the walk yields no terminal ancestor at all. -/
theorem root_walk_unbounded :
    findRootAux isAgNameClose
      [(1, { name := "antigravity", cmdline := "", parent := some 2 }),
       (2, { name := "antigravity", cmdline := "", parent := some 1 })]
      11 1 = WalkResult.outOfFuel ∧
    findRootAux isAgNameClose
      [(1, { name := "antigravity", cmdline := "", parent := none })]
      11 1 = WalkResult.missing := by
  decide

/-- Helper: under parentsDecrease, any recorded parent pid of a process
found in the snapshot is strictly smaller than the process pid. -/
theorem parent_lt_of_parentsDecrease {s : Snapshot} {pid q : Nat}
    {proc : Proc} (hdec : parentsDecrease s = true)
    (hl : lookupProc s pid = some proc) (hp : proc.parent = some q) :
    q < pid := by
  unfold lookupProc at hl
  cases hf : (s : List (Nat × Proc)).find? (fun e => e.1 == pid) with
  | none => rw [hf] at hl; simp at hl
  | some e =>
    rw [hf] at hl
    simp at hl
    have hmem : e ∈ s := List.mem_of_find?_eq_some hf
    have hkey := List.find?_some hf
    simp at hkey
    have hall := (List.all_eq_true.mp hdec) e hmem
    rw [hl, hp] at hall
    simp at hall
    omega

/-- C4 amended: the root-resolution walk terminates on every snapshot
whose parent pids strictly decrease (in particular on acyclic parent
data), with hop fuel exceeding the start pid; it is unbounded in the
code itself (no 10-hop cap — that cap exists only in
get_self_family_pids), and a missing parent link makes it yield nothing
rather than a terminal ancestor. -/
theorem root_walk_terminates (isAg : String → Bool) (s : Snapshot)
    (hdec : parentsDecrease s = true) :
    ∀ fuel start, start < fuel →
      findRootAux isAg s fuel start ≠ WalkResult.outOfFuel := by
  intro fuel
  induction fuel with
  | zero => intro start h; omega
  | succ n ih =>
    intro start h
    simp only [findRootAux]
    cases hl : lookupProc s start with
    | none => simp
    | some proc =>
      cases hp : proc.parent with
      | none => simp [hp]
      | some ppid =>
        simp only [hp]
        cases hq : lookupProc s ppid with
        | none => simp
        | some parent =>
          dsimp only
          by_cases hname : isAg parent.name = true
          · rw [if_pos hname]
            have hlt : ppid < start :=
              parent_lt_of_parentsDecrease hdec hl hp
            exact ih ppid (by omega)
          · rw [if_neg hname]
            simp

/-- Witness for the amended C4 theorem on a concrete three-process
chain with decreasing parent pids. -/
theorem root_walk_terminates_witness :
    findRootAux isAgNameClose
      [(5, { name := "antigravity", cmdline := "", parent := some 3 }),
       (3, { name := "antigravity", cmdline := "", parent := some 1 }),
       (1, { name := "systemd", cmdline := "", parent := none })]
      6 5 ≠ WalkResult.outOfFuel :=
  root_walk_terminates isAgNameClose
    [(5, { name := "antigravity", cmdline := "", parent := some 3 }),
     (3, { name := "antigravity", cmdline := "", parent := some 1 }),
     (1, { name := "systemd", cmdline := "", parent := none })]
    (by decide) 6 5 (by decide)

/-- C6 counterexample: when a dangling index entry triggers the pruning
block of list_instances and acquiring the mutation lock fails there,
that healing-internal failure becomes the operation's own error (the
Rust code applies `?` to the lock acquisition and the index reload
inside the healing block), even though the non-healing part (the first
index load) succeeded. -/
theorem healing_failure_surfaces :
    list_instances_io
      { indexLoad1 := Except.ok ["a"]
        recordLoad := fun _ => Except.error "unreadable"
        lockAcquire := Except.error "failed_to_acquire_lock"
        indexLoad2 := Except.ok ["a"]
        indexSave := Except.ok () }
      = Except.error "failed_to_acquire_lock" := by
  rfl

/-- C6 amended: the best-effort steps really are swallowed — the pruning
block's final index save and load_instance's cleanup rewrite never
surface (any record loads may fail too) — but the pruning block's lock
acquisition and index reload failures do propagate, so success is
guaranteed only when those two healing-internal steps succeed. -/
theorem self_healing_swallows (env : ListEnv)
    (h1 : env.indexLoad1.isOk = true)
    (h2 : env.lockAcquire.isOk = true)
    (h3 : env.indexLoad2.isOk = true)
    (parsed : Except String Instance) (save : Except String Unit)
    (hp : parsed.isOk = true) :
    (list_instances_io env).isOk = true ∧
    (load_instance_io parsed save).isOk = true := by
  constructor
  · unfold list_instances_io
    cases hi : env.indexLoad1 with
    | error e => rw [hi] at h1; simp [Except.isOk, Except.toBool] at h1
    | ok ids =>
      cases hl : env.lockAcquire with
      | error e => rw [hl] at h2; simp [Except.isOk, Except.toBool] at h2
      | ok u =>
        cases hx : env.indexLoad2 with
        | error e => rw [hx] at h3; simp [Except.isOk, Except.toBool] at h3
        | ok ids2 =>
          simp only [hi, hl, hx, bind, Except.bind]
          rcases ids.foldl
            (fun (acc : List Instance × List String) id =>
              match env.recordLoad id with
              | Except.ok i => (acc.1 ++ [i], acc.2)
              | Except.error _ => (acc.1, acc.2 ++ [id]))
            ([], []) with ⟨insts, invalid⟩
          by_cases hemp : invalid.isEmpty
          · simp [hemp, pure, Except.pure, Except.isOk, Except.toBool]
          · simp [hemp, pure, Except.pure, Except.isOk, Except.toBool]
  · cases hq : parsed with
    | error e => rw [hq] at hp; simp [Except.isOk, Except.toBool] at hp
    | ok inst =>
      unfold load_instance_io
      by_cases hc : needsCleanup inst
      · simp [hc, Except.isOk, Except.toBool]
      · simp [hc, Except.isOk, Except.toBool]

/-- Witness for the amended C6 theorem: a dangling entry is pruned while
the pruning save fails, and a corrupted cached-argument record is loaded
while the cleanup rewrite fails, yet both operations succeed. -/
theorem self_healing_swallows_witness :
    (list_instances_io
      { indexLoad1 := Except.ok ["a", "b"]
        recordLoad := fun id =>
          if id == "a" then Except.ok (Instance.new "a" "A" "/d")
          else Except.error "corrupt"
        lockAcquire := Except.ok ()
        indexLoad2 := Except.ok ["a", "b"]
        indexSave := Except.error "disk_full" }).isOk = true ∧
    (load_instance_io
      (Except.ok { Instance.new "c" "C" "/e" with
        last_launch_args := some ["--type=renderer"] })
      (Except.error "disk_full")).isOk = true :=
  self_healing_swallows _ (by rfl) (by rfl) (by rfl) _ _ (by rfl)

/-- Helper: a successful lookup means the key occurs in the store. -/
theorem any_key_of_lookup {records : List (String × Instance)} {id : String}
    {i : Instance} (h : lookupRecord records id = some i) :
    (records.any fun e => e.1 == id) = true := by
  unfold lookupRecord at h
  cases hf : records.find? (fun e => e.1 == id) with
  | none => rw [hf] at h; simp at h
  | some e =>
    have hmem := List.mem_of_find?_eq_some hf
    have hkey := List.find?_some hf
    exact List.any_eq_true.mpr ⟨e, hmem, hkey⟩

/-- Helper: a failed lookup means the key does not occur in the store. -/
theorem any_key_of_lookup_none {records : List (String × Instance)}
    {id : String} (h : lookupRecord records id = none) :
    (records.any fun e => e.1 == id) = false := by
  unfold lookupRecord at h
  cases hf : records.find? (fun e => e.1 == id) with
  | some e => rw [hf] at h; simp at h
  | none =>
    rw [List.any_eq_false]
    intro e hmem
    have := List.find?_eq_none.mp hf e hmem
    simpa using this

/-- Helper: in a well-formed store, a looked-up record carries the key
it was looked up under. -/
theorem lookup_wf {records : List (String × Instance)} {id : String}
    {i : Instance} (hwf : recordsWF records = true)
    (h : lookupRecord records id = some i) : i.id = id := by
  unfold lookupRecord at h
  cases hf : records.find? (fun e => e.1 == id) with
  | none => rw [hf] at h; simp at h
  | some e =>
    rw [hf] at h
    simp at h
    have hmem := List.mem_of_find?_eq_some hf
    have hkey := List.find?_some hf
    simp at hkey
    have hall := (List.all_eq_true.mp hwf) e hmem
    simp at hall
    rw [← h, hall, hkey]

/-- Helper: replacing the record stored under key k makes lookups of k
return the replacement, provided k was present. -/
theorem lookup_map_replace_eq {records : List (String × Instance)}
    {k : String} (i : Instance) (h : lookupRecord records k ≠ none) :
    lookupRecord
      (records.map fun e => if e.1 == k then (e.1, i) else e) k = some i := by
  induction records with
  | nil => simp [lookupRecord] at h
  | cons e t ih =>
    by_cases hk : (e.1 == k) = true
    · simp [lookupRecord, List.find?, hk]
    · have hk' : (e.1 == k) = false := by
        cases hb : e.1 == k with
        | true => exact absurd hb hk
        | false => rfl
      have hstep : lookupRecord (e :: t) k = lookupRecord t k := by
        unfold lookupRecord
        simp [List.find?, hk']
      have ht : lookupRecord t k ≠ none := by
        rw [hstep] at h; exact h
      simp only [List.map]
      rw [if_neg (by simp [hk'])]
      have hstep2 :
          lookupRecord
            (e :: (t.map fun e => if e.1 == k then (e.1, i) else e)) k
          = lookupRecord
            (t.map fun e => if e.1 == k then (e.1, i) else e) k := by
        unfold lookupRecord
        simp [List.find?, hk']
      rw [hstep2]
      exact ih ht

/-- Helper: lookup skips a head entry with a different key. -/
theorem lookup_cons_ne {e : String × Instance}
    {t : List (String × Instance)} {k : String}
    (hk : (e.1 == k) = false) :
    lookupRecord (e :: t) k = lookupRecord t k := by
  unfold lookupRecord
  simp [List.find?, hk]

/-- Helper: lookup returns a head entry with a matching key. -/
theorem lookup_cons_eq {e : String × Instance}
    {t : List (String × Instance)} {k : String}
    (hk : (e.1 == k) = true) :
    lookupRecord (e :: t) k = some e.2 := by
  unfold lookupRecord
  simp [List.find?, hk]

/-- Helper: replacing the record stored under key k leaves lookups of
other keys unchanged. -/
theorem lookup_map_replace_ne {records : List (String × Instance)}
    {k id : String} (i : Instance) (hne : id ≠ k) :
    lookupRecord (records.map fun e => if e.1 == k then (e.1, i) else e) id
      = lookupRecord records id := by
  induction records with
  | nil => rfl
  | cons e t ih =>
    simp only [List.map]
    by_cases hk : (e.1 == k) = true
    · rw [if_pos hk]
      have hek : e.1 = k := by simpa using hk
      have hid : (e.1 == id) = false := by
        rw [hek]
        exact beq_eq_false_iff_ne.mpr fun hc => hne hc.symm
      rw [lookup_cons_ne (by simpa using hid), lookup_cons_ne hid]
      exact ih
    · rw [if_neg hk]
      by_cases hid : (e.1 == id) = true
      · rw [lookup_cons_eq hid, lookup_cons_eq hid]
      · have hid' : (e.1 == id) = false := by
          cases hb : e.1 == id with
          | true => exact absurd hb hid
          | false => rfl
        rw [lookup_cons_ne hid', lookup_cons_ne hid']
        exact ih

/-- Helper: in-place replacement preserves record-store
well-formedness when the replacement carries the replaced key. -/
theorem wf_replace {records : List (String × Instance)} {k : String}
    {i : Instance} (hwf : recordsWF records = true) (hid : i.id = k) :
    recordsWF (records.map fun e => if e.1 == k then (e.1, i) else e)
      = true := by
  rw [recordsWF, List.all_eq_true]
  intro x hx
  obtain ⟨e, he, hxe⟩ := List.mem_map.mp hx
  by_cases hk : (e.1 == k) = true
  · rw [if_pos hk] at hxe
    have hek : e.1 = k := by simpa using hk
    rw [← hxe]
    simp [hid, hek]
  · rw [if_neg hk] at hxe
    rw [← hxe]
    exact (List.all_eq_true.mp hwf) e he

/-- Helper: appending a record keyed by its own id preserves
well-formedness. -/
theorem wf_append {records : List (String × Instance)} {i : Instance}
    (hwf : recordsWF records = true) :
    recordsWF (records ++ [(i.id, i)]) = true := by
  rw [recordsWF, List.all_eq_true]
  intro x hx
  rcases List.mem_append.mp hx with hx1 | hx2
  · exact (List.all_eq_true.mp hwf) x hx1
  · simp at hx2
    rw [hx2]
    simp

/-- Helper: a lookup that succeeds in the prefix is unchanged by an
appended suffix. -/
theorem lookup_append_left {l1 l2 : List (String × Instance)}
    {id : String} {i : Instance} (h : lookupRecord l1 id = some i) :
    lookupRecord (l1 ++ l2) id = some i := by
  unfold lookupRecord at h ⊢
  rw [List.find?_append]
  cases hf : l1.find? (fun e => e.1 == id) with
  | none => rw [hf] at h; simp at h
  | some e => rw [hf] at h; simp [Option.or] at h ⊢; exact h

/-- Helper: a lookup that fails in the prefix falls through to the
appended suffix. -/
theorem lookup_append_right {l1 l2 : List (String × Instance)}
    {id : String} (h : lookupRecord l1 id = none) :
    lookupRecord (l1 ++ l2) id = lookupRecord l2 id := by
  unfold lookupRecord at h ⊢
  rw [List.find?_append]
  cases hf : l1.find? (fun e => e.1 == id) with
  | none => simp [Option.or]
  | some e => rw [hf] at h; simp at h

/-- Helper: filtering away only elements that the filterMap drops does
not change the filterMap. -/
theorem filterMap_filter_of_none {α β : Type} (l : List α) (p : α → Bool)
    (f : α → Option β) (h : ∀ x ∈ l, p x = false → f x = none) :
    (l.filter p).filterMap f = l.filterMap f := by
  induction l with
  | nil => rfl
  | cons a t ih =>
    have hrest : ∀ x ∈ t, p x = false → f x = none := fun x hx =>
      h x (List.mem_cons_of_mem a hx)
    by_cases hp : p a = true
    · rw [List.filter_cons_of_pos hp]
      simp only [List.filterMap]
      rw [ih hrest]
    · have hp' : p a = false := by
        cases hb : p a with
        | true => exact absurd hb hp
        | false => rfl
      rw [List.filter_cons_of_neg (by simp [hp'])]
      simp only [List.filterMap]
      rw [h a (List.mem_cons_self a t) hp']
      exact ih hrest

/-- Helper: contains on a cons cell unfolds to a disjunction. -/
theorem contains_cons_str {a x : String} {t : List String} :
    (x :: t).contains a = ((a == x) || t.contains a) := rfl

/-- Helper: full characterization of the record-loading loop of
list_instances. For a well-formed record store it preserves
well-formedness, preserves which ids are present, never modifies a
record that needs no cleanup, marks exactly the absent indexed ids
invalid, leaves every present indexed id backed by a clean record, and
returns precisely the instances read off the final store in index
order. -/
theorem listLoop_spec (index : List InstanceSummary) :
    ∀ records : List (String × Instance), recordsWF records = true →
    recordsWF (listLoop records index).2.2 = true ∧
    (∀ id, lookupRecord (listLoop records index).2.2 id = none
        ↔ lookupRecord records id = none) ∧
    (∀ id i, lookupRecord records id = some i → needsCleanup i = false →
        lookupRecord (listLoop records index).2.2 id = some i) ∧
    (∀ id, (listLoop records index).2.1.contains id = true →
        lookupRecord records id = none) ∧
    (∀ s ∈ index, lookupRecord records s.id = none →
        (listLoop records index).2.1.contains s.id = true) ∧
    (∀ s ∈ index, lookupRecord records s.id ≠ none →
        ∃ i, lookupRecord (listLoop records index).2.2 s.id = some i
          ∧ needsCleanup i = false) ∧
    (listLoop records index).1
      = index.filterMap
          (fun s => lookupRecord (listLoop records index).2.2 s.id) := by
  induction index with
  | nil =>
    intro records hwf
    refine ⟨hwf, fun id => Iff.rfl, fun id i h _ => h, ?_, ?_, ?_, rfl⟩
    · intro id hcont
      simp [listLoop, List.contains] at hcont
    · intro s hs
      simp at hs
    · intro s hs
      simp at hs
  | cons s rest ih =>
    intro records hwf
    cases hl : lookupRecord records s.id with
    | none =>
      have hload : load_record records s.id = (none, records) := by
        simp [load_record, hl]
      have hstep : listLoop records (s :: rest)
          = ((listLoop records rest).1,
             s.id :: (listLoop records rest).2.1,
             (listLoop records rest).2.2) := by
        simp only [listLoop, hload]
      obtain ⟨ihA, ihB, ihC, ihD, ihE, ihF, ihG⟩ := ih records hwf
      rw [hstep]
      refine ⟨ihA, ihB, ihC, ?_, ?_, ?_, ?_⟩
      · intro id hcont
        rw [contains_cons_str] at hcont
        rcases Bool.or_eq_true_iff.mp hcont with hc1 | hc2
        · have : id = s.id := by simpa using hc1
          rw [this]
          exact hl
        · exact ihD id hc2
      · intro r hr hrl
        rcases List.mem_cons.mp hr with hr1 | hr2
        · rw [hr1]
          rw [contains_cons_str]
          simp
        · rw [contains_cons_str]
          rw [ihE r hr2 hrl]
          simp
      · intro r hr hrl
        rcases List.mem_cons.mp hr with hr1 | hr2
        · rw [hr1] at hrl
          exact absurd hl hrl
        · exact ihF r hr2 hrl
      · have hnone2 : lookupRecord (listLoop records rest).2.2 s.id = none :=
          (ihB s.id).mpr hl
        rw [List.filterMap_cons, hnone2]
        exact ihG
    | some inst =>
      have hid : inst.id = s.id := lookup_wf hwf hl
      by_cases hcl : needsCleanup inst = true
      · -- corrupted cached arguments: the record is cleaned and rewritten
        have hkey : (records.any fun e =>
            e.1 == ({ inst with last_launch_args := none } : Instance).id)
            = true := by
          have : ({ inst with last_launch_args := none } : Instance).id
              = s.id := hid
          rw [this]
          exact any_key_of_lookup hl
        have hsave : saveRecord records { inst with last_launch_args := none }
            = records.map fun e =>
                if e.1 == s.id
                then (e.1, { inst with last_launch_args := none }) else e := by
          rw [saveRecord, if_pos hkey]
          have : ({ inst with last_launch_args := none } : Instance).id
              = s.id := hid
          rw [this]
        have hload : load_record records s.id
            = (some { inst with last_launch_args := none },
               saveRecord records { inst with last_launch_args := none }) := by
          simp [load_record, hl, hcl]
        have hstep : listLoop records (s :: rest)
            = ({ inst with last_launch_args := none }
                :: (listLoop (saveRecord records
                      { inst with last_launch_args := none }) rest).1,
               (listLoop (saveRecord records
                  { inst with last_launch_args := none }) rest).2.1,
               (listLoop (saveRecord records
                  { inst with last_launch_args := none }) rest).2.2) := by
          simp only [listLoop, hload]
        have hwf1 : recordsWF (saveRecord records
            { inst with last_launch_args := none }) = true := by
          rw [hsave]
          exact wf_replace hwf hid
        have hself : lookupRecord (saveRecord records
              { inst with last_launch_args := none }) s.id
            = some { inst with last_launch_args := none } := by
          rw [hsave]
          exact lookup_map_replace_eq _ (by rw [hl]; simp)
        have hother : ∀ id, id ≠ s.id →
            lookupRecord (saveRecord records
              { inst with last_launch_args := none }) id
            = lookupRecord records id := by
          intro id hne
          rw [hsave]
          exact lookup_map_replace_ne _ hne
        have haux : ∀ id,
            (lookupRecord (saveRecord records
              { inst with last_launch_args := none }) id = none)
            ↔ lookupRecord records id = none := by
          intro id
          by_cases hc : id = s.id
          · rw [hc, hself, hl]
            simp
          · rw [hother id hc]
        obtain ⟨ihA, ihB, ihC, ihD, ihE, ihF, ihG⟩ := ih _ hwf1
        rw [hstep]
        refine ⟨ihA, ?_, ?_, ?_, ?_, ?_, ?_⟩
        · intro id
          exact (ihB id).trans (haux id)
        · intro id i hsome hclean
          by_cases hc : id = s.id
          · rw [hc, hl] at hsome
            have : i = inst := by
              injection hsome with h2
              exact h2.symm
            rw [this] at hclean
            rw [hclean] at hcl
            exact absurd hcl (by simp)
          · exact ihC id i (by rw [hother id hc]; exact hsome) hclean
        · intro id hcont
          exact (haux id).mp (ihD id hcont)
        · intro r hr hrl
          rcases List.mem_cons.mp hr with hr1 | hr2
          · rw [hr1] at hrl
            rw [hl] at hrl
            exact absurd hrl (by simp)
          · exact ihE r hr2 ((haux r.id).mpr hrl)
        · intro r hr hrl
          rcases List.mem_cons.mp hr with hr1 | hr2
          · refine ⟨{ inst with last_launch_args := none }, ?_, rfl⟩
            rw [hr1]
            exact ihC s.id _ hself rfl
          · refine ihF r hr2 ?_
            intro hnone
            exact hrl ((haux r.id).mp hnone)
        · rw [List.filterMap_cons]
          have : lookupRecord (listLoop (saveRecord records
              { inst with last_launch_args := none }) rest).2.2 s.id
              = some { inst with last_launch_args := none } :=
            ihC s.id _ hself rfl
          rw [this]
          rw [ihG]
      · -- clean record: the load is a pure read
        have hclb : needsCleanup inst = false := by
          cases hb : needsCleanup inst with
          | true => exact absurd hb hcl
          | false => rfl
        have hload : load_record records s.id = (some inst, records) := by
          simp [load_record, hl, hclb]
        have hstep : listLoop records (s :: rest)
            = (inst :: (listLoop records rest).1,
               (listLoop records rest).2.1,
               (listLoop records rest).2.2) := by
          simp only [listLoop, hload]
        obtain ⟨ihA, ihB, ihC, ihD, ihE, ihF, ihG⟩ := ih records hwf
        rw [hstep]
        refine ⟨ihA, ihB, ihC, ihD, ?_, ?_, ?_⟩
        · intro r hr hrl
          rcases List.mem_cons.mp hr with hr1 | hr2
          · rw [hr1] at hrl
            rw [hl] at hrl
            exact absurd hrl (by simp)
          · exact ihE r hr2 hrl
        · intro r hr hrl
          rcases List.mem_cons.mp hr with hr1 | hr2
          · refine ⟨inst, ?_, hclb⟩
            rw [hr1]
            exact ihC s.id inst hl hclb
          · exact ihF r hr2 hrl
        · rw [List.filterMap_cons]
          have : lookupRecord (listLoop records rest).2.2 s.id = some inst :=
            ihC s.id inst hl hclb
          rw [this]
          rw [ihG]

/-- Helper: unpacking cleanliness into per-entry record facts. -/
theorem clean_spec {st : RegState} (h : cleanSt st = true) :
    ∀ s ∈ st.index, ∃ i, lookupRecord st.records s.id = some i
      ∧ needsCleanup i = false := by
  intro s hs
  have := (List.all_eq_true.mp h) s hs
  cases hl : lookupRecord st.records s.id with
  | none => rw [hl] at this; simp at this
  | some i =>
    rw [hl] at this
    simp at this
    exact ⟨i, rfl, this⟩

/-- Helper: on a store whose indexed records are all present and clean,
the loading loop is a pure read: no invalid ids, no record change. -/
theorem listLoop_clean (index : List InstanceSummary) :
    ∀ records : List (String × Instance),
    (∀ s ∈ index, ∃ i, lookupRecord records s.id = some i
      ∧ needsCleanup i = false) →
    listLoop records index
      = (index.filterMap (fun s => lookupRecord records s.id), [],
         records) := by
  induction index with
  | nil => intro records _; rfl
  | cons s rest ih =>
    intro records h
    obtain ⟨i, hi, hic⟩ := h s (List.mem_cons_self s rest)
    have hload : load_record records s.id = (some i, records) := by
      simp [load_record, hi, hic]
    simp only [listLoop, hload]
    rw [ih records (fun r hr => h r (List.mem_cons_of_mem s hr))]
    rw [List.filterMap_cons, hi]

/-- Helper: listing a clean state returns its listed instances and
leaves the state unchanged. -/
theorem list_clean {st : RegState} (h : cleanSt st = true) :
    list_instances_st st = (listedOf st, st) := by
  unfold list_instances_st
  rw [listLoop_clean st.index st.records (clean_spec h)]
  rfl

/-- Helper: the state produced by list_instances is well-formed and
clean, the returned instances are exactly its listed instances, and
record presence is unchanged. -/
theorem list_post (st : RegState) (hwf : recordsWF st.records = true) :
    recordsWF (list_instances_st st).2.records = true ∧
    cleanSt (list_instances_st st).2 = true ∧
    (list_instances_st st).1 = listedOf (list_instances_st st).2 ∧
    (∀ id, lookupRecord (list_instances_st st).2.records id = none
        ↔ lookupRecord st.records id = none) := by
  obtain ⟨hA, hB, hC, hD, hE, hF, hG⟩ := listLoop_spec st.index st.records hwf
  by_cases hinv : (listLoop st.records st.index).2.1.isEmpty = true
  · have hstep : list_instances_st st
        = ((listLoop st.records st.index).1,
           { st with records := (listLoop st.records st.index).2.2 }) := by
      unfold list_instances_st
      rcases hL : listLoop st.records st.index with ⟨a, b, c⟩
      rw [hL] at hinv
      simp only at hinv
      dsimp only
      rw [if_pos hinv]
    rw [hstep]
    refine ⟨hA, ?_, ?_, hB⟩
    · rw [cleanSt, List.all_eq_true]
      intro s hs
      have hne : lookupRecord st.records s.id ≠ none := by
        intro hn
        have hcont := hE s hs hn
        have : (listLoop st.records st.index).2.1 = [] :=
          List.isEmpty_iff.mp hinv
        rw [this] at hcont
        simp [List.contains] at hcont
      obtain ⟨i, hi, hic⟩ := hF s hs hne
      rw [hi]
      simp [hic]
    · rw [hG]
      rfl
  · have hinv' : (listLoop st.records st.index).2.1.isEmpty = false := by
      cases hb : (listLoop st.records st.index).2.1.isEmpty with
      | true => exact absurd hb hinv
      | false => rfl
    have hstep : list_instances_st st
        = ((listLoop st.records st.index).1,
           { index := st.index.filter
               (fun s => !(listLoop st.records st.index).2.1.contains s.id)
             records := (listLoop st.records st.index).2.2 }) := by
      unfold list_instances_st
      rcases hL : listLoop st.records st.index with ⟨a, b, c⟩
      rw [hL] at hinv'
      simp only at hinv'
      dsimp only
      rw [if_neg (by simp [hinv'])]
    rw [hstep]
    refine ⟨hA, ?_, ?_, hB⟩
    · rw [cleanSt, List.all_eq_true]
      intro s hs
      have hs' := List.mem_filter.mp hs
      have hpc : (listLoop st.records st.index).2.1.contains s.id
          = false := by
        have h2 := hs'.2
        simpa using h2
      have hne : lookupRecord st.records s.id ≠ none := by
        intro hn
        have hcont := hE s hs'.1 hn
        rw [hcont] at hpc
        simp at hpc
      obtain ⟨i, hi, hic⟩ := hF s hs'.1 hne
      rw [hi]
      simp [hic]
    · rw [hG, listedOf]
      have := filterMap_filter_of_none st.index
        (fun s => !(listLoop st.records st.index).2.1.contains s.id)
        (fun s => lookupRecord (listLoop st.records st.index).2.2 s.id)
        ?_
      · exact this.symm
      · intro s _ hp
        have hcont : (listLoop st.records st.index).2.1.contains s.id
            = true := by
          simpa using hp
        exact (hB s.id).mpr (hD s.id hcont)

/-- Helper: projection form of get_default_instance_st. -/
theorem get_default_eq (st : RegState) :
    get_default_instance_st st
      = ((list_instances_st st).1.find? (·.is_default),
         (list_instances_st st).2) := by
  unfold get_default_instance_st
  rcases list_instances_st st with ⟨a, b⟩
  rfl

/-- Helper: ensure_default_instance_st when a default is listed. -/
theorem ensure_eq_of_found {st : RegState} {d : Instance}
    (id dir : String)
    (h : (list_instances_st st).1.find? (·.is_default) = some d) :
    ensure_default_instance_st st id dir = (d, (list_instances_st st).2) := by
  unfold ensure_default_instance_st
  rw [get_default_eq, h]

/-- Helper: ensure_default_instance_st when no default is listed. -/
theorem ensure_eq_of_none {st : RegState} (id dir : String)
    (h : (list_instances_st st).1.find? (·.is_default) = none) :
    ensure_default_instance_st st id dir
      = (Instance.new_default id dir,
         { index := (list_instances_st st).2.index
             ++ [summaryOf (Instance.new_default id dir)]
           records := saveRecord (list_instances_st st).2.records
             (Instance.new_default id dir) }) := by
  unfold ensure_default_instance_st
  rw [get_default_eq, h]

/-- Helper: filterMap only depends on the function's values on the
list. -/
theorem filterMap_congr_mem {α β : Type} {l : List α} {f g : α → Option β}
    (h : ∀ x ∈ l, f x = g x) : l.filterMap f = l.filterMap g := by
  induction l with
  | nil => rfl
  | cons a t ih =>
    rw [List.filterMap_cons, List.filterMap_cons, h a (List.mem_cons_self a t),
      ih (fun x hx => h x (List.mem_cons_of_mem a hx))]

/-- C9 amended: from any well-formed registry state (and a fresh uuid
for the would-be default), calling ensure_default_instance twice in
sequence returns the same instance and the same state the second time
as the first — the second call creates nothing — and the first call
preserves the at-most-one-listed-default invariant. (The full original
claim fails only because update_instance can mark a second instance
default; see the counterexample.) -/
theorem ensure_default_idempotent (st : RegState) (id1 dir1 id2 dir2 : String)
    (hwf : recordsWF st.records = true)
    (hfresh : lookupRecord st.records id1 = none) :
    ensure_default_instance_st
        (ensure_default_instance_st st id1 dir1).2 id2 dir2
      = ensure_default_instance_st st id1 dir1 ∧
    (defaultsListed st ≤ 1 →
      defaultsListed (ensure_default_instance_st st id1 dir1).2 ≤ 1) := by
  obtain ⟨pA, pB, pC, pD⟩ := list_post st hwf
  cases hfind : (list_instances_st st).1.find? (·.is_default) with
  | some d =>
    have h1 := ensure_eq_of_found id1 dir1 hfind
    have hlist1 : list_instances_st (list_instances_st st).2
        = (listedOf (list_instances_st st).2, (list_instances_st st).2) :=
      list_clean pB
    have hfind1 : (list_instances_st (list_instances_st st).2).1.find?
        (·.is_default) = some d := by
      rw [hlist1]
      dsimp only
      rw [← pC]
      exact hfind
    have h2 := ensure_eq_of_found id2 dir2 hfind1
    constructor
    · rw [h1]
      dsimp only
      rw [h2, hlist1]
    · intro hinv
      unfold defaultsListed at hinv ⊢
      rw [h1]
      dsimp only
      rw [hlist1]
      dsimp only
      rw [← pC]
      exact hinv
  | none =>
    have h1 := ensure_eq_of_none id1 dir1 hfind
    have hfresh1 : lookupRecord (list_instances_st st).2.records id1 = none :=
      (pD id1).mpr hfresh
    have hinstid : (Instance.new_default id1 dir1).id = id1 := rfl
    have hkeyf : ((list_instances_st st).2.records.any
        fun e => e.1 == (Instance.new_default id1 dir1).id) = false := by
      rw [hinstid]
      exact any_key_of_lookup_none hfresh1
    have hsave : saveRecord (list_instances_st st).2.records
        (Instance.new_default id1 dir1)
        = (list_instances_st st).2.records
          ++ [((Instance.new_default id1 dir1).id,
               Instance.new_default id1 dir1)] := by
      rw [saveRecord, if_neg (by simp [hkeyf])]
    have hlooknew : lookupRecord (saveRecord (list_instances_st st).2.records
        (Instance.new_default id1 dir1)) id1
        = some (Instance.new_default id1 dir1) := by
      rw [hsave, hinstid]
      rw [lookup_append_right hfresh1]
      exact lookup_cons_eq (by simp)
    have hlookold : ∀ s ∈ (list_instances_st st).2.index,
        lookupRecord (saveRecord (list_instances_st st).2.records
          (Instance.new_default id1 dir1)) s.id
        = lookupRecord (list_instances_st st).2.records s.id := by
      intro s hs
      obtain ⟨i, hi, hic⟩ := clean_spec pB s hs
      rw [hsave]
      rw [lookup_append_left hi, hi]
    have hclean1 : cleanSt
        { index := (list_instances_st st).2.index
            ++ [summaryOf (Instance.new_default id1 dir1)]
          records := saveRecord (list_instances_st st).2.records
            (Instance.new_default id1 dir1) } = true := by
      rw [cleanSt, List.all_eq_true]
      intro s hs
      dsimp only at hs ⊢
      rcases List.mem_append.mp hs with hs1 | hs2
      · obtain ⟨i, hi, hic⟩ := clean_spec pB s hs1
        rw [hlookold s hs1, hi]
        simp [hic]
      · simp at hs2
        rw [hs2]
        have hsid : (summaryOf (Instance.new_default id1 dir1)).id = id1 := rfl
        rw [hsid, hlooknew]
        rfl
    have hlisted1 : listedOf
        { index := (list_instances_st st).2.index
            ++ [summaryOf (Instance.new_default id1 dir1)]
          records := saveRecord (list_instances_st st).2.records
            (Instance.new_default id1 dir1) }
        = listedOf (list_instances_st st).2
          ++ [Instance.new_default id1 dir1] := by
      rw [listedOf]
      dsimp only
      rw [List.filterMap_append]
      have hfirst := filterMap_congr_mem
        (l := (list_instances_st st).2.index)
        (f := fun s => lookupRecord (saveRecord (list_instances_st st).2.records
          (Instance.new_default id1 dir1)) s.id)
        (g := fun s => lookupRecord (list_instances_st st).2.records s.id)
        hlookold
      rw [hfirst]
      rw [listedOf]
      congr 1
      have hsid : (summaryOf (Instance.new_default id1 dir1)).id = id1 := rfl
      simp [List.filterMap, hsid, hlooknew]
    have hlist1 : list_instances_st
        { index := (list_instances_st st).2.index
            ++ [summaryOf (Instance.new_default id1 dir1)]
          records := saveRecord (list_instances_st st).2.records
            (Instance.new_default id1 dir1) }
        = (listedOf (list_instances_st st).2
            ++ [Instance.new_default id1 dir1],
           { index := (list_instances_st st).2.index
              ++ [summaryOf (Instance.new_default id1 dir1)]
             records := saveRecord (list_instances_st st).2.records
              (Instance.new_default id1 dir1) }) := by
      rw [list_clean hclean1, hlisted1]
    have hfind1 : (list_instances_st
        { index := (list_instances_st st).2.index
            ++ [summaryOf (Instance.new_default id1 dir1)]
          records := saveRecord (list_instances_st st).2.records
            (Instance.new_default id1 dir1) }).1.find? (·.is_default)
        = some (Instance.new_default id1 dir1) := by
      rw [hlist1]
      dsimp only
      rw [List.find?_append]
      have hnone : (listedOf (list_instances_st st).2).find? (·.is_default)
          = none := by
        rw [← pC]
        exact hfind
      rw [hnone]
      simp [Option.or, List.find?]
      rfl
    have h2 := ensure_eq_of_found id2 dir2 hfind1
    constructor
    · rw [h1]
      dsimp only
      rw [h2, hlist1]
    · intro _
      unfold defaultsListed
      rw [h1]
      dsimp only
      rw [hlist1]
      dsimp only
      rw [List.filter_append]
      have hnil : (listedOf (list_instances_st st).2).filter (·.is_default)
          = [] := by
        rw [← pC]
        rw [List.filter_eq_nil_iff]
        intro a ha
        have := List.find?_eq_none.mp hfind a ha
        simpa using this
      rw [hnil]
      have hd : (Instance.new_default id1 dir1).is_default = true := rfl
      simp [List.filter_cons, hd]

/-- C9 counterexample: starting from the empty registry, ensure the
default instance, create a second (non-default) instance, then call
update_instance passing that instance with is_default flipped to true —
update_instance saves its argument verbatim, and the registry now lists
two is_default instances, violating the at-most-one-default invariant. -/
theorem two_defaults_reachable :
    defaultsListed
      (update_instance_st
        (create_instance_st
          (ensure_default_instance_st
            { index := [], records := [] } "id-d" "/cfg/Antigravity").2
          "id-a" "A" "/d1" []).2
        { Instance.new "id-a" "A" "/d1" with is_default := true }).2 = 2 := by
  decide

/-- Witness for the amended C9 theorem on the empty registry. -/
theorem ensure_default_idempotent_witness :
    ensure_default_instance_st
        (ensure_default_instance_st
          { index := [], records := [] } "id-d" "/cfg/Antigravity").2
        "id-e" "/cfg/Antigravity"
      = ensure_default_instance_st
          { index := [], records := [] } "id-d" "/cfg/Antigravity" ∧
    (defaultsListed { index := [], records := [] } ≤ 1 →
      defaultsListed (ensure_default_instance_st
        { index := [], records := [] } "id-d" "/cfg/Antigravity").2 ≤ 1) :=
  ensure_default_idempotent { index := [], records := [] }
    "id-d" "/cfg/Antigravity" "id-e" "/cfg/Antigravity" (by rfl) (by rfl)

end AGM
